import Mathlib

/-!
Verification development for the `mdasio` binary codec (`mdasio.go`).

The Go package encodes and decodes meteorological values (scalars, strings,
timestamps, points, units, grids) over a byte stream.  We embed the code
shallowly:

* a byte is a `Nat` (writers only ever produce values `< 256`);
* the read side of an `MdasIO` instance is a state `RSt` holding the bytes
  remaining in the reader `r` together with the 8-byte scratch buffer
  `m.buf` allocated by `NewMdasIO`;
* the write side is a state `WSt` holding the sink behaviour (what
  `m.w.Write` answers to each call), the number of `Write` calls made so
  far, the bytes the sink has accepted, and the scratch buffer;
* Go's `(value, error)` returns become `Except Err value × state`: the
  state is threaded even through failures (the stream really is consumed),
  while an `Except.error` carries no value, matching the convention that a
  failed call returns no usable value;
* Go runtime panics (out-of-range slice or index) are the distinct outcome
  `Err.panic`;
* a `float32` is represented by its IEEE-754 bit pattern, a `Nat < 2^32`:
  `math.Float32bits` / `math.Float32frombits` are inverse bit casts, so the
  codec's float handling is exactly byte shuffling on the pattern;
* Go's `int` is 64-bit (the platform type), modelled as `Int`; conversions
  such as `uint32(v)` and `int(u)` are spelled out with `%` on `Int` (euclidean) and `toNat`.
-/

namespace Mdasio

/-- Outcomes a call can fail with: `ioErr` is a stream-I/O error propagated
from the underlying `Read`/`Write` (including `io.ErrUnexpectedEOF` on a
truncated stream), `noFullWrite` is the package's `ErrNoFullWrite`,
`panic` is a Go runtime panic (out-of-range slice or index), and `hang`
marks that the `writeAll` loop is still running after the modelled number
of iterations (the loop has no fuel in Go; `hang` never occurs for sinks
that make progress). -/
inductive Err where
  | ioErr
  | noFullWrite
  | panic
  | hang
deriving DecidableEq, Repr

/-- Value of a little-endian byte list, as computed by
`binary.LittleEndian.Uint16/Uint32/Uint64` on the corresponding slice. -/
def leNat : List Nat → Nat
  | [] => 0
  | b :: bs => b + 256 * leNat bs

/-- Little-endian bytes of `v`, `k` bytes long, as produced by
`binary.LittleEndian.PutUint16/PutUint32/PutUint64`. -/
def leBytes : Nat → Nat → List Nat
  | 0, _ => []
  | k + 1, v => v % 256 :: leBytes k (v / 256)

/-- Reinterpretation of a `w`-bit unsigned value as a signed one, as done by
Go conversions like `int16(uint16)`, `int64(uint64)`. -/
def toSigned (w : Nat) (u : Nat) : Int :=
  if u < 2 ^ (w - 1) then (u : Int) else (u : Int) - 2 ^ w

@[simp] theorem leBytes_length (k v : Nat) : (leBytes k v).length = k := by
  induction k generalizing v with
  | zero => rfl
  | succ n ih => simp [leBytes, ih]

theorem leNat_leBytes (k v : Nat) : leNat (leBytes k v) = v % 256 ^ k := by
  induction k generalizing v with
  | zero => simp [leBytes, leNat, Nat.mod_one]
  | succ n ih =>
    simp only [leBytes, leNat, ih]
    rw [pow_succ, Nat.mul_comm (256 ^ n) 256, Nat.mod_mul]

/-- Read-side state of an `MdasIO` instance: the bytes still unread from
`m.r`, and the scratch buffer `m.buf` (length 8, zero-initialised by
`NewMdasIO`). -/
structure RSt where
  input : List Nat
  buf : List Nat
deriving DecidableEq, Repr

/-- Scratch buffer of a freshly constructed `MdasIO` (`make([]byte, 8)`). -/
def rbuf0 : List Nat := List.replicate 8 0

/-- Model of `io.ReadFull(m.r, m.buf[:k])`: on success the first `k` input
bytes are copied into the front of the scratch buffer; on a truncated
stream all remaining input is consumed (and copied) and the call reports a
stream-I/O error. -/
def readFullBuf (k : Nat) (st : RSt) : Except Err Unit × RSt :=
  let taken := st.input.take k
  let st' : RSt := ⟨st.input.drop k, taken ++ st.buf.drop taken.length⟩
  (if k ≤ st.input.length then Except.ok () else Except.error Err.ioErr, st')

/-- Model of `io.ReadFull(m.r, fresh)` into a freshly allocated buffer of
size `k` (used by `ReadString` and for grid rows): the scratch buffer is
untouched; on success the bytes read are returned. -/
def readFullNew (k : Nat) (st : RSt) : Except Err (List Nat) × RSt :=
  (if k ≤ st.input.length then Except.ok (st.input.take k) else Except.error Err.ioErr,
   ⟨st.input.drop k, st.buf⟩)

/-- Go `func (m *MdasIO) ReadBool() (bool, error)`. -/
def ReadBool (st : RSt) : Except Err Bool × RSt :=
  match readFullBuf 1 st with
  | (Except.error e, st') => (Except.error e, st')
  | (Except.ok _, st') => (Except.ok (decide (st'.buf.getD 0 0 ≠ 0)), st')

/-- Go `func (m *MdasIO) ReadInt16() (int16, error)`. -/
def ReadInt16 (st : RSt) : Except Err Int × RSt :=
  match readFullBuf 2 st with
  | (Except.error e, st') => (Except.error e, st')
  | (Except.ok _, st') => (Except.ok (toSigned 16 (leNat (st'.buf.take 2))), st')

/-- Go `func (m *MdasIO) ReadInt() (int, error)`: note the result is
`int(binary.LittleEndian.Uint32(...))` — on a 64-bit platform this
zero-extends the four bytes, so the result is always non-negative. -/
def ReadInt (st : RSt) : Except Err Int × RSt :=
  match readFullBuf 4 st with
  | (Except.error e, st') => (Except.error e, st')
  | (Except.ok _, st') => (Except.ok ((leNat (st'.buf.take 4) : Int)), st')

/-- Go `func (m *MdasIO) ReadInt64() (int64, error)`. -/
def ReadInt64 (st : RSt) : Except Err Int × RSt :=
  match readFullBuf 8 st with
  | (Except.error e, st') => (Except.error e, st')
  | (Except.ok _, st') => (Except.ok (toSigned 64 (leNat (st'.buf.take 8))), st')

/-- Go `func (m *MdasIO) ReadFloat() (float32, error)`: the float is its
bit pattern, so the result is `binary.LittleEndian.Uint32` of the bytes. -/
def ReadFloat (st : RSt) : Except Err Nat × RSt :=
  match readFullBuf 4 st with
  | (Except.error e, st') => (Except.error e, st')
  | (Except.ok _, st') => (Except.ok (leNat (st'.buf.take 4)), st')

/-- Go `func (m *MdasIO) ReadString() (string, error)`: reads the length
prefix with `ReadInt`, allocates `make([]byte, strLen)` (a Go panic if the
length were negative — unreachable here because `ReadInt` zero-extends),
then `io.ReadFull` into that fresh buffer.  No validation of the length is
performed. -/
def ReadString (st : RSt) : Except Err (List Nat) × RSt :=
  match ReadInt st with
  | (Except.error e, st') => (Except.error e, st')
  | (Except.ok strLen, st1) =>
    if strLen < 0 then (Except.error Err.panic, st1)
    else
      match readFullNew strLen.toNat st1 with
      | (Except.error e, st') => (Except.error e, st')
      | (Except.ok bytes, st') => (Except.ok bytes, st')

/-- Go `time.Time`, restricted to what the codec observes: whole seconds
since the Unix epoch (`t.Unix()`, an `int64`) and the nanosecond part
within that second (`0 ≤ nsec < 1e9`).  `time.Unix(sec, 0)` is
`⟨sec, 0⟩`. -/
structure GoTime where
  sec : Int
  nsec : Nat
deriving DecidableEq, Repr

/-- The timestamp `t` truncated to whole seconds, i.e. the value
`time.Unix(t.Unix(), 0)` denotes. -/
def truncSeconds (t : GoTime) : GoTime := ⟨t.sec, 0⟩

/-- Go `type Point struct { Lat, Lon float32 }`; fields are float32 bit
patterns. -/
structure Point where
  Lat : Nat
  Lon : Nat
deriving DecidableEq, Repr

/-- Go `type Unit struct { Id, Name, Type string }` (named `GoUnit` to
avoid clashing with Lean's `Unit`, and field `Type'` for the keyword
`Type`); strings are byte lists. -/
structure GoUnit where
  Id : List Nat
  Name : List Nat
  Type' : List Nat
deriving DecidableEq, Repr

/-- Go `type Grid struct { GridHeader; Data [][]float32 }` with the
embedded `GridHeader` fields flattened in (N, M are Go `int`s; the six
header floats are bit patterns). -/
structure Grid where
  N : Int
  M : Int
  MinLat : Nat
  MaxLat : Nat
  MinLon : Nat
  MaxLon : Nat
  StepLat : Nat
  StepLon : Nat
  Data : List (List Nat)
deriving DecidableEq, Repr

/-- Go `func (m *MdasIO) ReadDate() (time.Time, error)`: `time.Unix(sec, 0)`
of the decoded `int64`. -/
def ReadDate (st : RSt) : Except Err GoTime × RSt :=
  match ReadInt64 st with
  | (Except.error e, st') => (Except.error e, st')
  | (Except.ok sec, st') => (Except.ok ⟨sec, 0⟩, st')

/-- Go `func (m *MdasIO) ReadPoint() (Point, error)`: two floats in order
latitude then longitude; the first failure aborts the call. -/
def ReadPoint (st : RSt) : Except Err Point × RSt :=
  match ReadFloat st with
  | (Except.error e, st') => (Except.error e, st')
  | (Except.ok lat, st1) =>
    match ReadFloat st1 with
    | (Except.error e, st') => (Except.error e, st')
    | (Except.ok lon, st') => (Except.ok ⟨lat, lon⟩, st')

/-- Go `func (m *MdasIO) ReadUnit() (Unit, error)`: three strings in the
fixed order id, name, type; the first failure aborts the call. -/
def ReadUnit (st : RSt) : Except Err GoUnit × RSt :=
  match ReadString st with
  | (Except.error e, st') => (Except.error e, st')
  | (Except.ok i, st1) =>
    match ReadString st1 with
    | (Except.error e, st') => (Except.error e, st')
    | (Except.ok n, st2) =>
      match ReadString st2 with
      | (Except.error e, st') => (Except.error e, st')
      | (Except.ok t, st') => (Except.ok ⟨i, n, t⟩, st')

/-- Inner loop of `ReadGrid`'s row decoding, iterated `count` times from
column `j`:
`grid.Data[i][j] = math.Float32frombits(binary.LittleEndian.Uint32(m.buf[4*j : 4*j+4]))`.
The floats are taken from the 8-byte scratch buffer `m.buf`, not from the
row bytes just read; the slice `m.buf[4*j : 4*j+4]` is a Go runtime panic
as soon as `4*j+4` exceeds the buffer's capacity 8. -/
def decodeRowScratch (buf : List Nat) : Nat → Nat → List Nat → Except Err (List Nat)
  | 0, _, acc => Except.ok acc
  | count + 1, j, acc =>
    if 4 * j + 4 ≤ buf.length then
      decodeRowScratch buf count (j + 1) (acc ++ [leNat ((buf.drop (4 * j)).take 4)])
    else Except.error Err.panic

/-- Row loop of `ReadGrid`, iterated `count = grid.N` times: each row first
does `io.ReadFull(m.r, rowBuf)` with `rowBuf` of size `4*grid.M` (the
bytes land in a fresh buffer and are then ignored), then decodes `grid.M`
floats out of the scratch buffer via `decodeRowScratch`. -/
def readGridRows (M : Int) : Nat → List (List Nat) → RSt → Except Err (List (List Nat)) × RSt
  | 0, acc, st => (Except.ok acc, st)
  | count + 1, acc, st =>
    match readFullNew (4 * M.toNat) st with
    | (Except.error e, st') => (Except.error e, st')
    | (Except.ok _rowBytes, st') =>
      match decodeRowScratch st'.buf M.toNat 0 [] with
      | Except.error e => (Except.error e, st')
      | Except.ok row => readGridRows M count (acc ++ [row]) st'

/-- Go `func (m *MdasIO) ReadGrid() (Grid, error)`: header fields N, M
(ints) and the six floats in order, then `N` rows decoded by
`readGridRows`; the first failure aborts the call. -/
def ReadGrid (st : RSt) : Except Err Grid × RSt :=
  match ReadInt st with
  | (Except.error e, st') => (Except.error e, st')
  | (Except.ok nV, st1) =>
  match ReadInt st1 with
  | (Except.error e, st') => (Except.error e, st')
  | (Except.ok mV, st2) =>
  match ReadFloat st2 with
  | (Except.error e, st') => (Except.error e, st')
  | (Except.ok minLat, st3) =>
  match ReadFloat st3 with
  | (Except.error e, st') => (Except.error e, st')
  | (Except.ok maxLat, st4) =>
  match ReadFloat st4 with
  | (Except.error e, st') => (Except.error e, st')
  | (Except.ok minLon, st5) =>
  match ReadFloat st5 with
  | (Except.error e, st') => (Except.error e, st')
  | (Except.ok maxLon, st6) =>
  match ReadFloat st6 with
  | (Except.error e, st') => (Except.error e, st')
  | (Except.ok stepLat, st7) =>
  match ReadFloat st7 with
  | (Except.error e, st') => (Except.error e, st')
  | (Except.ok stepLon, st8) =>
  match readGridRows mV nV.toNat [] st8 with
  | (Except.error e, st') => (Except.error e, st')
  | (Except.ok data, st') =>
    (Except.ok ⟨nV, mV, minLat, maxLat, minLon, maxLon, stepLat, stepLon, data⟩, st')

/-- Behaviour of one `m.w.Write` call of the sink: either an error, or
"`n` bytes accepted, no error". -/
inductive WResp where
  | err
  | ok (n : Nat)
deriving DecidableEq, Repr

/-- Write-side state of an `MdasIO` instance: the sink's behaviour as a
function of the call index and the requested length (`io.Writer` is
external, so its responses are part of the model), the number of `Write`
calls made so far, the bytes the sink has accepted so far, and the
scratch buffer `m.buf`. -/
structure WSt where
  sink : Nat → Nat → WResp
  widx : Nat
  out : List Nat
  buf : List Nat

/-- A sink that accepts every write in full with no error. -/
def perfectSink : Nat → Nat → WResp := fun _ len => WResp.ok len

/-- Write-side state of a freshly constructed `MdasIO` bound to a perfect
sink. -/
def pwst0 : WSt := ⟨perfectSink, 0, [], List.replicate 8 0⟩

/-- Model of one `m.w.Write(b)` call: the sink's response for this call
index determines the returned byte count `n` (a conforming `io.Writer`
reports `n ≤ len(b)`; the accepted bytes are clamped accordingly) or the
propagated error. -/
def wWrite (b : List Nat) (st : WSt) : Except Err Nat × WSt :=
  match st.sink st.widx b.length with
  | WResp.err => (Except.error Err.ioErr, { st with widx := st.widx + 1 })
  | WResp.ok n => (Except.ok n, { st with widx := st.widx + 1, out := st.out ++ b.take n })

/-- Go `func (m *MdasIO) writeAll(b []byte)` as a step-indexed loop:
`fuel` bounds how many `Write` calls we unroll (the Go loop is unbounded;
exhausting `fuel` yields `Err.hang`, meaning the loop is still running
after that many calls).  Each iteration writes `b`, propagates a sink
error, and otherwise continues with `b = b[n:]` until `b` is empty. -/
def writeAllRun : Nat → List Nat → WSt → Except Err Unit × WSt
  | _, [], st => (Except.ok (), st)
  | 0, _ :: _, st => (Except.error Err.hang, st)
  | fuel + 1, b, st =>
    match wWrite b st with
    | (Except.error e, st') => (Except.error e, st')
    | (Except.ok n, st') => writeAllRun fuel (b.drop n) st'

/-- The `writeAll` loop with enough fuel for any sink that makes progress:
a sink accepting at least one byte per call needs at most `b.length`
calls, so with this fuel `Err.hang` occurs exactly when the Go loop is
spinning on zero-byte, error-free writes. -/
def writeAll (b : List Nat) (st : WSt) : Except Err Unit × WSt :=
  writeAllRun (b.length + 1) b st

/-- Go `func (m *MdasIO) WriteBool(v bool) error`: stores 0/1 in
`m.buf[0]`, writes `m.buf[:1]`, and treats any error-free short write as
the distinct `ErrNoFullWrite` without retrying. -/
def WriteBool (v : Bool) (st : WSt) : Except Err Unit × WSt :=
  let st1 : WSt := { st with buf := [if v then 1 else 0] ++ st.buf.drop 1 }
  match wWrite (st1.buf.take 1) st1 with
  | (Except.error e, st') => (Except.error e, st')
  | (Except.ok n, st') =>
    if n ≠ 1 then (Except.error Err.noFullWrite, st') else (Except.ok (), st')

/-- Go `func (m *MdasIO) WriteInt16(v int16) error`:
`binary.LittleEndian.PutUint16(m.buf[:2], uint16(v))` then a single write
of `m.buf[:2]`. -/
def WriteInt16 (v : Int) (st : WSt) : Except Err Unit × WSt :=
  let st1 : WSt := { st with buf := leBytes 2 (v % 2 ^ 16).toNat ++ st.buf.drop 2 }
  match wWrite (st1.buf.take 2) st1 with
  | (Except.error e, st') => (Except.error e, st')
  | (Except.ok n, st') =>
    if n ≠ 2 then (Except.error Err.noFullWrite, st') else (Except.ok (), st')

/-- Go `func (m *MdasIO) WriteInt(v int) error`:
`binary.LittleEndian.PutUint32(m.buf[:4], uint32(v))` then a single write
of `m.buf[:4]`. -/
def WriteInt (v : Int) (st : WSt) : Except Err Unit × WSt :=
  let st1 : WSt := { st with buf := leBytes 4 (v % 2 ^ 32).toNat ++ st.buf.drop 4 }
  match wWrite (st1.buf.take 4) st1 with
  | (Except.error e, st') => (Except.error e, st')
  | (Except.ok n, st') =>
    if n ≠ 4 then (Except.error Err.noFullWrite, st') else (Except.ok (), st')

/-- Go `func (m *MdasIO) WriteInt64(v int64) error`:
`binary.LittleEndian.PutUint64(m.buf[:8], uint64(v))` then a single write
of `m.buf[:8]`. -/
def WriteInt64 (v : Int) (st : WSt) : Except Err Unit × WSt :=
  let st1 : WSt := { st with buf := leBytes 8 (v % 2 ^ 64).toNat ++ st.buf.drop 8 }
  match wWrite (st1.buf.take 8) st1 with
  | (Except.error e, st') => (Except.error e, st')
  | (Except.ok n, st') =>
    if n ≠ 8 then (Except.error Err.noFullWrite, st') else (Except.ok (), st')

/-- Go `func (m *MdasIO) WriteFloat(v float32) error`:
`binary.LittleEndian.PutUint32(m.buf[:4], math.Float32bits(v))` then a
single write of `m.buf[:4]`; `v` is already the bit pattern. -/
def WriteFloat (v : Nat) (st : WSt) : Except Err Unit × WSt :=
  let st1 : WSt := { st with buf := leBytes 4 (v % 2 ^ 32) ++ st.buf.drop 4 }
  match wWrite (st1.buf.take 4) st1 with
  | (Except.error e, st') => (Except.error e, st')
  | (Except.ok n, st') =>
    if n ≠ 4 then (Except.error Err.noFullWrite, st') else (Except.ok (), st')

/-- Go `func (m *MdasIO) WriteString(v string) error`: the length prefix
via `WriteInt(len(v))` (non-retrying), then the body via the retrying
`writeAll`. -/
def WriteString (v : List Nat) (st : WSt) : Except Err Unit × WSt :=
  match WriteInt (Int.ofNat v.length) st with
  | (Except.error e, st') => (Except.error e, st')
  | (Except.ok _, st1) => writeAll v st1

/-- Go `func (m *MdasIO) WriteDate(v time.Time) error`:
`WriteInt64(v.Unix())`, i.e. the whole-second count; the nanosecond part
is dropped. -/
def WriteDate (v : GoTime) (st : WSt) : Except Err Unit × WSt :=
  WriteInt64 v.sec st

/-- Overwrite of `l[start : start + v.length]` with `v` (Go
`binary.LittleEndian.PutUint32(rowBuf[4*j : 4*j+4], ...)`). -/
def setBytes (l : List Nat) (start : Nat) (v : List Nat) : List Nat :=
  l.take start ++ v ++ l.drop (start + v.length)

/-- Inner column loop of `WriteGrid`, iterated `count` times from column
`j`: `binary.LittleEndian.PutUint32(rowBuf[4*j:4*j+4], math.Float32bits(v.Data[i][j]))`.
The index `v.Data[i][j]` is unchecked: a missing row or short row is a Go
runtime panic. -/
def fillRowBuf (data : List (List Nat)) (i : Nat) : Nat → Nat → List Nat → Except Err (List Nat)
  | 0, _, rowBuf => Except.ok rowBuf
  | count + 1, j, rowBuf =>
    match (data.get? i).bind (fun row => row.get? j) with
    | none => Except.error Err.panic
    | some x => fillRowBuf data i count (j + 1) (setBytes rowBuf (4 * j) (leBytes 4 (x % 2 ^ 32)))

/-- Row loop of `WriteGrid`, iterated `count = v.N` times: serialize row
`i` into the row-sized buffer (Go reuses one buffer; since a completed
iteration overwrites all `4*M` bytes, a fresh buffer per row is
observationally identical), then send it with the retrying `writeAll`. -/
def writeGridRows (data : List (List Nat)) (M : Nat) : Nat → Nat → WSt → Except Err Unit × WSt
  | 0, _, st => (Except.ok (), st)
  | count + 1, i, st =>
    match fillRowBuf data i M 0 (List.replicate (4 * M) 0) with
    | Except.error e => (Except.error e, st)
    | Except.ok rowBuf =>
      match writeAll rowBuf st with
      | (Except.error e, st') => (Except.error e, st')
      | (Except.ok _, st') => writeGridRows data M count (i + 1) st'

/-- Go `func (m *MdasIO) WriteGrid(v Grid) error`: the eight header
scalars in order, then `rowBuf := make([]byte, 4*v.M)` (a Go runtime
panic if `v.M` is negative) and the row loop. -/
def WriteGrid (g : Grid) (st : WSt) : Except Err Unit × WSt :=
  match WriteInt g.N st with
  | (Except.error e, st') => (Except.error e, st')
  | (Except.ok _, st1) =>
  match WriteInt g.M st1 with
  | (Except.error e, st') => (Except.error e, st')
  | (Except.ok _, st2) =>
  match WriteFloat g.MinLat st2 with
  | (Except.error e, st') => (Except.error e, st')
  | (Except.ok _, st3) =>
  match WriteFloat g.MaxLat st3 with
  | (Except.error e, st') => (Except.error e, st')
  | (Except.ok _, st4) =>
  match WriteFloat g.MinLon st4 with
  | (Except.error e, st') => (Except.error e, st')
  | (Except.ok _, st5) =>
  match WriteFloat g.MaxLon st5 with
  | (Except.error e, st') => (Except.error e, st')
  | (Except.ok _, st6) =>
  match WriteFloat g.StepLat st6 with
  | (Except.error e, st') => (Except.error e, st')
  | (Except.ok _, st7) =>
  match WriteFloat g.StepLon st7 with
  | (Except.error e, st') => (Except.error e, st')
  | (Except.ok _, st8) =>
    if g.M < 0 then (Except.error Err.panic, st8)
    else writeGridRows g.Data g.M.toNat g.N.toNat 0 st8

/-- Wire form of a length-prefixed string, exactly the bytes `WriteString`
pushes to the sink. -/
def stringWire (s : List Nat) : List Nat :=
  leBytes 4 ((Int.ofNat s.length) % 2 ^ 32).toNat ++ s

/-- Wire form of a `Unit` value: its three strings, length-prefixed, in
the fixed order id, name, type. -/
def unitWire (u : GoUnit) : List Nat :=
  stringWire u.Id ++ stringWire u.Name ++ stringWire u.Type'

/-! ### Arithmetic helper lemmas -/

theorem toNat_intCast_mod32 (n : Nat) : (((n : Int)) % 2 ^ 32).toNat = n % 2 ^ 32 := by
  have h3 : (2 : Int) ^ 32 = 4294967296 := by norm_num
  have h2 : (2 : Nat) ^ 32 = 4294967296 := by norm_num
  rw [h2, h3]; omega

theorem toSigned16_round (v : Int) (h1 : -2 ^ 15 ≤ v) (h2 : v < 2 ^ 15) :
    toSigned 16 ((v % 2 ^ 16).toNat % 2 ^ 16) = v := by
  have hi : (2 : Int) ^ 16 = 65536 := by norm_num
  have hi15 : (2 : Int) ^ 15 = 32768 := by norm_num
  have hn : (2 : Nat) ^ 16 = 65536 := by norm_num
  have hn15 : (2 : Nat) ^ 15 = 32768 := by norm_num
  unfold toSigned
  rw [hi, hi15, hn, hn15] at *
  norm_num
  split <;> omega

theorem toSigned64_round (v : Int) (h1 : -2 ^ 63 ≤ v) (h2 : v < 2 ^ 63) :
    toSigned 64 ((v % 2 ^ 64).toNat % 2 ^ 64) = v := by
  have hi : (2 : Int) ^ 64 = 18446744073709551616 := by norm_num
  have hi63 : (2 : Int) ^ 63 = 9223372036854775808 := by norm_num
  have hn : (2 : Nat) ^ 64 = 18446744073709551616 := by norm_num
  have hn63 : (2 : Nat) ^ 63 = 9223372036854775808 := by norm_num
  unfold toSigned
  rw [hi, hi63, hn, hn63] at *
  norm_num
  split <;> omega

theorem leNat_leBytes2 (v : Nat) (h : v < 2 ^ 16) : leNat (leBytes 2 v) = v := by
  rw [leNat_leBytes]
  exact Nat.mod_eq_of_lt (by norm_num at h ⊢; omega)

theorem leNat_leBytes4 (v : Nat) (h : v < 2 ^ 32) : leNat (leBytes 4 v) = v := by
  rw [leNat_leBytes]
  exact Nat.mod_eq_of_lt (by norm_num at h ⊢; omega)

theorem leNat_leBytes8 (v : Nat) (h : v < 2 ^ 64) : leNat (leBytes 8 v) = v := by
  rw [leNat_leBytes]
  exact Nat.mod_eq_of_lt (by norm_num at h ⊢; omega)

/-! ### Reader equation lemmas -/

theorem readFullBuf_ok (k : Nat) (st : RSt) (h : k ≤ st.input.length) :
    readFullBuf k st =
      (Except.ok (), ⟨st.input.drop k, st.input.take k ++ st.buf.drop k⟩) := by
  unfold readFullBuf
  simp [h, List.length_take, Nat.min_eq_left h]

theorem readFullBuf_short (k : Nat) (st : RSt) (h : st.input.length < k) :
    (readFullBuf k st).1 = Except.error Err.ioErr := by
  unfold readFullBuf
  simp [Nat.not_le.mpr h]

theorem readFullNew_pre (k : Nat) (pre rest : List Nat) (buf : List Nat)
    (h : pre.length = k) :
    readFullNew k ⟨pre ++ rest, buf⟩ = (Except.ok pre, ⟨rest, buf⟩) := by
  unfold readFullNew
  rw [List.take_left' h, List.drop_left' h]
  simp [List.length_append, h]

theorem readFullNew_short (k : Nat) (st : RSt) (h : st.input.length < k) :
    readFullNew k st = (Except.error Err.ioErr, ⟨st.input.drop k, st.buf⟩) := by
  unfold readFullNew
  simp [Nat.not_le.mpr h]

theorem ReadInt_pre (pre rest : List Nat) (buf : List Nat) (h : pre.length = 4) :
    ReadInt ⟨pre ++ rest, buf⟩ =
      (Except.ok ((leNat pre : Int)), ⟨rest, pre ++ buf.drop 4⟩) := by
  unfold ReadInt
  rw [readFullBuf_ok 4 _ (by simp [h])]
  simp only [List.take_left' h, List.drop_left' h]

theorem ReadInt_short (st : RSt) (h : st.input.length < 4) :
    (ReadInt st).1 = Except.error Err.ioErr := by
  unfold ReadInt
  have := readFullBuf_short 4 st h
  rcases heq : readFullBuf 4 st with ⟨r, st'⟩
  rw [heq] at this
  simp at this
  rw [this]

theorem ReadInt16_pre (pre rest : List Nat) (buf : List Nat) (h : pre.length = 2) :
    ReadInt16 ⟨pre ++ rest, buf⟩ =
      (Except.ok (toSigned 16 (leNat pre)), ⟨rest, pre ++ buf.drop 2⟩) := by
  unfold ReadInt16
  rw [readFullBuf_ok 2 _ (by simp [h])]
  simp only [List.take_left' h, List.drop_left' h]

theorem ReadInt16_short (st : RSt) (h : st.input.length < 2) :
    (ReadInt16 st).1 = Except.error Err.ioErr := by
  unfold ReadInt16
  have := readFullBuf_short 2 st h
  rcases heq : readFullBuf 2 st with ⟨r, st'⟩
  rw [heq] at this
  simp at this
  rw [this]

theorem ReadInt64_pre (pre rest : List Nat) (buf : List Nat) (h : pre.length = 8) :
    ReadInt64 ⟨pre ++ rest, buf⟩ =
      (Except.ok (toSigned 64 (leNat pre)), ⟨rest, pre ++ buf.drop 8⟩) := by
  unfold ReadInt64
  rw [readFullBuf_ok 8 _ (by simp [h])]
  simp only [List.take_left' h, List.drop_left' h]

theorem ReadInt64_short (st : RSt) (h : st.input.length < 8) :
    (ReadInt64 st).1 = Except.error Err.ioErr := by
  unfold ReadInt64
  have := readFullBuf_short 8 st h
  rcases heq : readFullBuf 8 st with ⟨r, st'⟩
  rw [heq] at this
  simp at this
  rw [this]

theorem ReadFloat_pre (pre rest : List Nat) (buf : List Nat) (h : pre.length = 4) :
    ReadFloat ⟨pre ++ rest, buf⟩ =
      (Except.ok (leNat pre), ⟨rest, pre ++ buf.drop 4⟩) := by
  unfold ReadFloat
  rw [readFullBuf_ok 4 _ (by simp [h])]
  simp only [List.take_left' h, List.drop_left' h]

theorem ReadFloat_short (st : RSt) (h : st.input.length < 4) :
    (ReadFloat st).1 = Except.error Err.ioErr := by
  unfold ReadFloat
  have := readFullBuf_short 4 st h
  rcases heq : readFullBuf 4 st with ⟨r, st'⟩
  rw [heq] at this
  simp at this
  rw [this]

theorem ReadBool_short (st : RSt) (h : st.input.length < 1) :
    (ReadBool st).1 = Except.error Err.ioErr := by
  unfold ReadBool
  have := readFullBuf_short 1 st h
  rcases heq : readFullBuf 1 st with ⟨r, st'⟩
  rw [heq] at this
  simp at this
  rw [this]

theorem ReadString_pre (s rest : List Nat) (buf : List Nat) (h : s.length < 2 ^ 32) :
    ReadString ⟨stringWire s ++ rest, buf⟩ =
      (Except.ok s, ⟨rest, leBytes 4 s.length ++ buf.drop 4⟩) := by
  have hlen : ((Int.ofNat s.length) % 2 ^ 32).toNat = s.length := by
    rw [Int.ofNat_eq_natCast, toNat_intCast_mod32]
    exact Nat.mod_eq_of_lt h
  unfold ReadString stringWire
  rw [List.append_assoc]
  rw [ReadInt_pre (leBytes 4 _) _ _ (leBytes_length 4 _)]
  rw [hlen, leNat_leBytes4 s.length h]
  have hneg : ¬ ((s.length : Nat) : Int) < 0 := by omega
  simp only [hneg, if_false]
  rw [show ((s.length : Nat) : Int).toNat = s.length from by omega]
  rw [readFullNew_pre s.length s rest _ rfl]

theorem ReadString_short (st : RSt)
    (h : st.input.length < 4 + leNat (st.input.take 4)) :
    (ReadString st).1 = Except.error Err.ioErr := by
  unfold ReadString
  by_cases h4 : st.input.length < 4
  · have := ReadInt_short st h4
    rcases heq : ReadInt st with ⟨r, st'⟩
    rw [heq] at this
    simp at this
    rw [this]
  · push_neg at h4
    obtain ⟨pre, rest, hpre, hin⟩ : ∃ pre rest, pre.length = 4 ∧ st.input = pre ++ rest :=
      ⟨st.input.take 4, st.input.drop 4,
        by simp [List.length_take, Nat.min_eq_left h4], (List.take_append_drop 4 st.input).symm⟩
    rcases st with ⟨input, buf⟩
    simp only at hin
    subst hin
    rw [ReadInt_pre pre rest buf hpre]
    have hneg : ¬ ((leNat pre : Nat) : Int) < 0 := by omega
    simp only [hneg, if_false]
    have htk : (pre ++ rest).take 4 = pre := List.take_left' hpre
    rw [htk] at h
    have hlen : rest.length < ((leNat pre : Nat) : Int).toNat := by
      simp only [List.length_append, hpre] at h
      omega
    rw [readFullNew_short _ _ hlen]

theorem ReadInt16_exact (pre : List Nat) (buf : List Nat) (h : pre.length = 2) :
    ReadInt16 ⟨pre, buf⟩ =
      (Except.ok (toSigned 16 (leNat pre)), ⟨[], pre ++ buf.drop 2⟩) := by
  conv_lhs => rw [show (⟨pre, buf⟩ : RSt) = ⟨pre ++ [], buf⟩ from by simp]
  exact ReadInt16_pre pre [] buf h

theorem ReadInt64_exact (pre : List Nat) (buf : List Nat) (h : pre.length = 8) :
    ReadInt64 ⟨pre, buf⟩ =
      (Except.ok (toSigned 64 (leNat pre)), ⟨[], pre ++ buf.drop 8⟩) := by
  conv_lhs => rw [show (⟨pre, buf⟩ : RSt) = ⟨pre ++ [], buf⟩ from by simp]
  exact ReadInt64_pre pre [] buf h

theorem ReadFloat_exact (pre : List Nat) (buf : List Nat) (h : pre.length = 4) :
    ReadFloat ⟨pre, buf⟩ =
      (Except.ok (leNat pre), ⟨[], pre ++ buf.drop 4⟩) := by
  conv_lhs => rw [show (⟨pre, buf⟩ : RSt) = ⟨pre ++ [], buf⟩ from by simp]
  exact ReadFloat_pre pre [] buf h

/-! ### Writer equation lemmas -/

theorem wWrite_perfect (b : List Nat) (st : WSt) (h : st.sink = perfectSink) :
    wWrite b st =
      (Except.ok b.length, { st with widx := st.widx + 1, out := st.out ++ b }) := by
  unfold wWrite
  rw [h]
  simp [perfectSink, List.take_length]

theorem WriteBool_perfect (v : Bool) (st : WSt) (h : st.sink = perfectSink) :
    WriteBool v st =
      (Except.ok (), { st with widx := st.widx + 1,
                               out := st.out ++ [if v then 1 else 0],
                               buf := [if v then 1 else 0] ++ st.buf.drop 1 }) := by
  unfold WriteBool
  dsimp only
  rw [List.take_left' (by simp : ([if v then 1 else 0] : List Nat).length = 1)]
  rw [wWrite_perfect _ _ (by simpa using h)]
  simp

theorem WriteInt16_perfect (v : Int) (st : WSt) (h : st.sink = perfectSink) :
    WriteInt16 v st =
      (Except.ok (), { st with widx := st.widx + 1,
                               out := st.out ++ leBytes 2 (v % 2 ^ 16).toNat,
                               buf := leBytes 2 (v % 2 ^ 16).toNat ++ st.buf.drop 2 }) := by
  unfold WriteInt16
  dsimp only
  rw [List.take_left' (leBytes_length 2 _)]
  rw [wWrite_perfect _ _ (by simpa using h)]
  simp

theorem WriteInt_perfect (v : Int) (st : WSt) (h : st.sink = perfectSink) :
    WriteInt v st =
      (Except.ok (), { st with widx := st.widx + 1,
                               out := st.out ++ leBytes 4 (v % 2 ^ 32).toNat,
                               buf := leBytes 4 (v % 2 ^ 32).toNat ++ st.buf.drop 4 }) := by
  unfold WriteInt
  dsimp only
  rw [List.take_left' (leBytes_length 4 _)]
  rw [wWrite_perfect _ _ (by simpa using h)]
  simp

theorem WriteInt64_perfect (v : Int) (st : WSt) (h : st.sink = perfectSink) :
    WriteInt64 v st =
      (Except.ok (), { st with widx := st.widx + 1,
                               out := st.out ++ leBytes 8 (v % 2 ^ 64).toNat,
                               buf := leBytes 8 (v % 2 ^ 64).toNat ++ st.buf.drop 8 }) := by
  unfold WriteInt64
  dsimp only
  rw [List.take_left' (leBytes_length 8 _)]
  rw [wWrite_perfect _ _ (by simpa using h)]
  simp

theorem WriteFloat_perfect (v : Nat) (st : WSt) (h : st.sink = perfectSink) :
    WriteFloat v st =
      (Except.ok (), { st with widx := st.widx + 1,
                               out := st.out ++ leBytes 4 (v % 2 ^ 32),
                               buf := leBytes 4 (v % 2 ^ 32) ++ st.buf.drop 4 }) := by
  unfold WriteFloat
  dsimp only
  rw [List.take_left' (leBytes_length 4 _)]
  rw [wWrite_perfect _ _ (by simpa using h)]
  simp

theorem writeAllRun_nil (fuel : Nat) (st : WSt) :
    writeAllRun fuel [] st = (Except.ok (), st) := by
  cases fuel <;> rfl

theorem writeAllRun_cons (fuel : Nat) (x : Nat) (xs : List Nat) (st : WSt) :
    writeAllRun (fuel + 1) (x :: xs) st =
      match wWrite (x :: xs) st with
      | (Except.error e, st') => (Except.error e, st')
      | (Except.ok n, st') => writeAllRun fuel ((x :: xs).drop n) st' := rfl

theorem writeAll_perfect (b : List Nat) (st : WSt) (h : st.sink = perfectSink) :
    ∃ w, writeAll b st = (Except.ok (), { st with widx := w, out := st.out ++ b }) := by
  cases b with
  | nil =>
    refine ⟨st.widx, ?_⟩
    rw [writeAll, writeAllRun_nil]
    simp
  | cons x xs =>
    refine ⟨st.widx + 1, ?_⟩
    rw [writeAll]
    show writeAllRun ((x :: xs).length + 1) (x :: xs) st = _
    rw [show (x :: xs).length + 1 = (x :: xs).length + 1 from rfl, writeAllRun_cons]
    rw [wWrite_perfect _ _ h]
    dsimp only
    rw [List.drop_length, writeAllRun_nil]

theorem WriteString_perfect (s : List Nat) (st : WSt) (h : st.sink = perfectSink) :
    ∃ w buf', WriteString s st =
      (Except.ok (), { st with widx := w, out := st.out ++ stringWire s, buf := buf' }) := by
  unfold WriteString
  rw [WriteInt_perfect _ _ h]
  dsimp only
  obtain ⟨w, hw⟩ := writeAll_perfect s
      { st with widx := st.widx + 1,
                out := st.out ++ leBytes 4 ((Int.ofNat s.length) % 2 ^ 32).toNat,
                buf := leBytes 4 ((Int.ofNat s.length) % 2 ^ 32).toNat ++ st.buf.drop 4 }
      (by simpa using h)
  rw [hw]
  refine ⟨w, leBytes 4 ((Int.ofNat s.length) % 2 ^ 32).toNat ++ st.buf.drop 4, ?_⟩
  simp [stringWire, List.append_assoc]

/-! ### Concrete grids exercising `ReadGrid` -/

/-- A 1×1 grid whose single datum is 1.0f (pattern 1065353216) and whose
StepLon header is 2.0f (pattern 1073741824): decoding its own encoding
shows the datum replaced by the stale StepLon bytes left in the scratch
buffer. -/
def gridOneCell : Grid := ⟨1, 1, 0, 0, 0, 0, 0, 1073741824, [[1065353216]]⟩

/-- A 1×3 grid (patterns of 1.0f, 2.0f, 3.0f): three columns make
`ReadGrid` slice `m.buf[8:12]` past the 8-byte scratch buffer, a Go
runtime panic. -/
def gridThreeCols : Grid := ⟨1, 3, 0, 0, 0, 0, 0, 0, [[1065353216, 1073741824, 1077936128]]⟩

/-- C1: the claim states that `WriteGrid` then `ReadGrid` reproduces the
grid exactly and that `ReadGrid` decodes each row from the bytes just
read, not from the shared scratch buffer.  The code violates this:
decoding the encoding of the 1×1 grid `gridOneCell` succeeds but returns
the stale StepLon pattern 1073741824 instead of the datum 1065353216
(the floats are taken from `m.buf`), and decoding the encoding of the
1×3 grid `gridThreeCols` panics on the out-of-range slice
`m.buf[8:12]`. -/
theorem C1_grid_roundtrip_scratch_bug :
    (WriteGrid gridOneCell pwst0).1 = Except.ok () ∧
    (ReadGrid ⟨(WriteGrid gridOneCell pwst0).2.out, rbuf0⟩).1 =
      Except.ok { gridOneCell with Data := [[1073741824]] } ∧
    ({ gridOneCell with Data := [[1073741824]] } : Grid) ≠ gridOneCell ∧
    (WriteGrid gridThreeCols pwst0).1 = Except.ok () ∧
    (ReadGrid ⟨(WriteGrid gridThreeCols pwst0).2.out, rbuf0⟩).1 = Except.error Err.panic :=
  ⟨rfl, rfl, by decide, rfl, rfl⟩

/-- C2: round-trips of the fixed-width scalars.  Bool, int16, int64 and
float32 round-trip bit-exactly, but the 32-bit integer does not: `ReadInt`
computes `int(binary.LittleEndian.Uint32(...))`, which zero-extends, so
`WriteInt(-1)` decodes to 4294967295 rather than -1, contradicting the
claim that every signed 32-bit value (negative ones included)
round-trips. -/
theorem C2_scalar_roundtrip_int_sign_bug :
    (∀ v : Bool, (ReadBool ⟨(WriteBool v pwst0).2.out, rbuf0⟩).1 = Except.ok v) ∧
    (∀ v : Int, -2 ^ 15 ≤ v → v < 2 ^ 15 →
      (ReadInt16 ⟨(WriteInt16 v pwst0).2.out, rbuf0⟩).1 = Except.ok v) ∧
    (∀ v : Int, -2 ^ 63 ≤ v → v < 2 ^ 63 →
      (ReadInt64 ⟨(WriteInt64 v pwst0).2.out, rbuf0⟩).1 = Except.ok v) ∧
    (∀ v : Nat, v < 2 ^ 32 →
      (ReadFloat ⟨(WriteFloat v pwst0).2.out, rbuf0⟩).1 = Except.ok v) ∧
    (WriteInt (-1) pwst0).1 = Except.ok () ∧
    (ReadInt ⟨(WriteInt (-1) pwst0).2.out, rbuf0⟩).1 = Except.ok 4294967295 ∧
    (4294967295 : Int) ≠ -1 := by
  refine ⟨?_, ?_, ?_, ?_, rfl, rfl, by decide⟩
  · intro v; cases v <;> rfl
  · intro v h1 h2
    rw [WriteInt16_perfect v pwst0 rfl]
    dsimp only
    simp only [pwst0, List.nil_append]
    rw [ReadInt16_exact _ _ (leBytes_length 2 _)]
    dsimp only
    rw [leNat_leBytes, show (256 : Nat) ^ 2 = 2 ^ 16 from by norm_num]
    rw [toSigned16_round v h1 h2]
  · intro v h1 h2
    rw [WriteInt64_perfect v pwst0 rfl]
    dsimp only
    simp only [pwst0, List.nil_append]
    rw [ReadInt64_exact _ _ (leBytes_length 8 _)]
    dsimp only
    rw [leNat_leBytes, show (256 : Nat) ^ 8 = 2 ^ 64 from by norm_num]
    rw [toSigned64_round v h1 h2]
  · intro v h
    rw [WriteFloat_perfect v pwst0 rfl]
    dsimp only
    simp only [pwst0, List.nil_append]
    rw [ReadFloat_exact _ _ (leBytes_length 4 _)]
    dsimp only
    rw [leNat_leBytes4 _ (Nat.mod_lt _ (by norm_num)), Nat.mod_eq_of_lt h]

/-- C2 witness: the proven round-trips at concrete inputs — `true`,
`-12345` (int16), the minimum int64, and the float32 quiet-NaN pattern
2143289344 (0x7FC00000). -/
theorem C2_scalar_roundtrip_int_sign_bug_witness :
    (ReadBool ⟨(WriteBool true pwst0).2.out, rbuf0⟩).1 = Except.ok true ∧
    (ReadInt16 ⟨(WriteInt16 (-12345) pwst0).2.out, rbuf0⟩).1 = Except.ok (-12345) ∧
    (ReadInt64 ⟨(WriteInt64 (-9223372036854775808) pwst0).2.out, rbuf0⟩).1 =
      Except.ok (-9223372036854775808) ∧
    (ReadFloat ⟨(WriteFloat 2143289344 pwst0).2.out, rbuf0⟩).1 = Except.ok 2143289344 :=
  ⟨C2_scalar_roundtrip_int_sign_bug.1 true,
   C2_scalar_roundtrip_int_sign_bug.2.1 (-12345) (by decide) (by decide),
   C2_scalar_roundtrip_int_sign_bug.2.2.1 (-9223372036854775808) (by decide) (by decide),
   C2_scalar_roundtrip_int_sign_bug.2.2.2.1 2143289344 (by decide)⟩

/-- C3: the claim states that a negative or insanely large string length
prefix makes `ReadString` fail fast before touching the stream for body
bytes.  The code has no such check: on the stream `FF FF FF FF 07` (the
int32 prefix -1 followed by one byte) the prefix zero-extends to
4294967295, `ReadString` allocates a buffer that size, reads the stream
for the body — consuming every remaining byte — and only then fails with
the propagated stream-I/O error. -/
theorem C3_readstring_no_prefix_validation :
    (ReadString ⟨[255, 255, 255, 255, 7], rbuf0⟩).1 = Except.error Err.ioErr ∧
    (ReadString ⟨[255, 255, 255, 255, 7], rbuf0⟩).2.input = [] := by
  have key : ReadString ⟨[255, 255, 255, 255, 7], rbuf0⟩ =
      (Except.error Err.ioErr, ⟨[], [255, 255, 255, 255] ++ rbuf0.drop 4⟩) := by
    show ReadString ⟨[255, 255, 255, 255] ++ [7], rbuf0⟩ = _
    unfold ReadString
    rw [ReadInt_pre [255, 255, 255, 255] [7] rbuf0 rfl]
    dsimp only
    have hl : leNat [255, 255, 255, 255] = 4294967295 := by norm_num [leNat]
    rw [hl]
    rw [if_neg (by norm_num : ¬ ((4294967295 : Nat) : Int) < 0)]
    rw [show ((4294967295 : Nat) : Int).toNat = 4294967295 from rfl]
    rw [readFullNew_short _ _ (by norm_num)]
    rw [List.drop_eq_nil_of_le (by norm_num)]
  exact ⟨by rw [key], by rw [key]⟩

/-- C4: encoding any byte string with `WriteString` produces its wire form
(length prefix then raw bytes), and `ReadString` on those bytes — with
anything following on the stream — returns exactly the same bytes and
leaves the rest of the stream unread.  Embedded zero bytes and any byte
values are covered since `s` is an arbitrary byte list; the length may be
anything below 2^32 (in particular 0, 1 and 10000). -/
theorem C4_string_roundtrip (s : List Nat) (rest : List Nat) (h : s.length < 2 ^ 32) :
    (WriteString s pwst0).1 = Except.ok () ∧
    (WriteString s pwst0).2.out = stringWire s ∧
    (ReadString ⟨stringWire s ++ rest, rbuf0⟩).1 = Except.ok s ∧
    (ReadString ⟨stringWire s ++ rest, rbuf0⟩).2.input = rest := by
  obtain ⟨w, buf', hw⟩ := WriteString_perfect s pwst0 rfl
  have hr := ReadString_pre s rest rbuf0 h
  exact ⟨by rw [hw], by rw [hw]; simp [pwst0], by rw [hr], by rw [hr]⟩

/-- C4 witness: the round-trip at the concrete string `[0, 255, 7]`
(length 3, with an embedded zero byte) followed by a stray byte `9`. -/
theorem C4_string_roundtrip_witness :
    (WriteString [0, 255, 7] pwst0).1 = Except.ok () ∧
    (WriteString [0, 255, 7] pwst0).2.out = stringWire [0, 255, 7] ∧
    (ReadString ⟨stringWire [0, 255, 7] ++ [9], rbuf0⟩).1 = Except.ok [0, 255, 7] ∧
    (ReadString ⟨stringWire [0, 255, 7] ++ [9], rbuf0⟩).2.input = [9] :=
  C4_string_roundtrip [0, 255, 7] [9] (by norm_num)

theorem ReadUnit_pre (u : GoUnit) (rest : List Nat) (buf : List Nat)
    (hi : u.Id.length < 2 ^ 32) (hn : u.Name.length < 2 ^ 32)
    (ht : u.Type'.length < 2 ^ 32) :
    ∃ buf', ReadUnit ⟨unitWire u ++ rest, buf⟩ = (Except.ok u, ⟨rest, buf'⟩) := by
  unfold ReadUnit
  rw [show unitWire u ++ rest
        = stringWire u.Id ++ (stringWire u.Name ++ (stringWire u.Type' ++ rest)) from by
      simp [unitWire]]
  rw [ReadString_pre _ _ _ hi]
  dsimp only
  rw [ReadString_pre _ _ _ hn]
  dsimp only
  rw [ReadString_pre _ _ _ ht]
  exact ⟨_, rfl⟩

/-- C7: `ReadUnit` decodes three length-prefixed strings in the fixed
order id, name, type; a failure of the first, second or third string read
makes the whole call return that same error; and decoding two
consecutively encoded units from one stream yields the two originals,
with the first call leaving the stream positioned exactly at the second
unit's bytes and the second call exactly at whatever follows. -/
theorem C7_unit_order_abort_backtoback (u1 u2 : GoUnit) (rest : List Nat)
    (h1 : u1.Id.length < 2 ^ 32) (h2 : u1.Name.length < 2 ^ 32)
    (h3 : u1.Type'.length < 2 ^ 32) (h4 : u2.Id.length < 2 ^ 32)
    (h5 : u2.Name.length < 2 ^ 32) (h6 : u2.Type'.length < 2 ^ 32) :
    (∀ st e st', ReadString st = (Except.error e, st') →
       ReadUnit st = (Except.error e, st')) ∧
    (∀ st v st1 e st', ReadString st = (Except.ok v, st1) →
       ReadString st1 = (Except.error e, st') → ReadUnit st = (Except.error e, st')) ∧
    (∀ st v st1 v2 st2 e st', ReadString st = (Except.ok v, st1) →
       ReadString st1 = (Except.ok v2, st2) → ReadString st2 = (Except.error e, st') →
       ReadUnit st = (Except.error e, st')) ∧
    (ReadUnit ⟨unitWire u1 ++ unitWire u2 ++ rest, rbuf0⟩).1 = Except.ok u1 ∧
    (ReadUnit ⟨unitWire u1 ++ unitWire u2 ++ rest, rbuf0⟩).2.input = unitWire u2 ++ rest ∧
    (ReadUnit ((ReadUnit ⟨unitWire u1 ++ unitWire u2 ++ rest, rbuf0⟩).2)).1 = Except.ok u2 ∧
    (ReadUnit ((ReadUnit ⟨unitWire u1 ++ unitWire u2 ++ rest, rbuf0⟩).2)).2.input = rest := by
  obtain ⟨bufA, hA⟩ := ReadUnit_pre u1 (unitWire u2 ++ rest) rbuf0 h1 h2 h3
  obtain ⟨bufB, hB⟩ := ReadUnit_pre u2 rest bufA h4 h5 h6
  refine ⟨?_, ?_, ?_, ?_, ?_, ?_, ?_⟩
  · intro st e st' h
    unfold ReadUnit
    rw [h]
  · intro st v st1 e st' ha hb
    unfold ReadUnit
    rw [ha]
    dsimp only
    rw [hb]
  · intro st v st1 v2 st2 e st' ha hb hc
    unfold ReadUnit
    rw [ha]
    dsimp only
    rw [hb]
    dsimp only
    rw [hc]
  · rw [show unitWire u1 ++ unitWire u2 ++ rest
          = unitWire u1 ++ (unitWire u2 ++ rest) from by simp, hA]
  · rw [show unitWire u1 ++ unitWire u2 ++ rest
          = unitWire u1 ++ (unitWire u2 ++ rest) from by simp, hA]
  · rw [show unitWire u1 ++ unitWire u2 ++ rest
          = unitWire u1 ++ (unitWire u2 ++ rest) from by simp, hA]
    dsimp only
    rw [hB]
  · rw [show unitWire u1 ++ unitWire u2 ++ rest
          = unitWire u1 ++ (unitWire u2 ++ rest) from by simp, hA]
    dsimp only
    rw [hB]

/-- C7 witness: the theorem at two concrete units and, for the abort
conjuncts, at concrete streams whose first, second or third string read
fails with the stream-I/O error. -/
theorem C7_unit_order_abort_backtoback_witness :
    (ReadUnit ⟨[], rbuf0⟩ = (Except.error Err.ioErr, ⟨[], rbuf0⟩)) ∧
    (ReadUnit ⟨[1, 0, 0, 0, 65, 0], rbuf0⟩ =
      (Except.error Err.ioErr, ⟨[], [0, 0, 0, 0, 0, 0, 0, 0]⟩)) ∧
    (ReadUnit ⟨[1, 0, 0, 0, 65, 1, 0, 0, 0, 66, 0], rbuf0⟩ =
      (Except.error Err.ioErr, ⟨[], [0, 0, 0, 0, 0, 0, 0, 0]⟩)) ∧
    (ReadUnit ⟨unitWire ⟨[65], [66, 67], []⟩ ++ unitWire ⟨[], [68], [69]⟩ ++ [5], rbuf0⟩).1 =
      Except.ok ⟨[65], [66, 67], []⟩ ∧
    (ReadUnit ((ReadUnit ⟨unitWire ⟨[65], [66, 67], []⟩ ++ unitWire ⟨[], [68], [69]⟩ ++ [5],
        rbuf0⟩).2)).1 = Except.ok ⟨[], [68], [69]⟩ := by
  have main := C7_unit_order_abort_backtoback ⟨[65], [66, 67], []⟩ ⟨[], [68], [69]⟩ [5]
    (by norm_num) (by norm_num) (by norm_num) (by norm_num) (by norm_num) (by norm_num)
  exact ⟨main.1 ⟨[], rbuf0⟩ Err.ioErr ⟨[], rbuf0⟩ rfl,
    main.2.1 ⟨[1, 0, 0, 0, 65, 0], rbuf0⟩ [65] ⟨[0], [1, 0, 0, 0, 0, 0, 0, 0]⟩
      Err.ioErr ⟨[], [0, 0, 0, 0, 0, 0, 0, 0]⟩ rfl rfl,
    main.2.2.1 ⟨[1, 0, 0, 0, 65, 1, 0, 0, 0, 66, 0], rbuf0⟩
      [65] ⟨[1, 0, 0, 0, 66, 0], [1, 0, 0, 0, 0, 0, 0, 0]⟩
      [66] ⟨[0], [1, 0, 0, 0, 0, 0, 0, 0]⟩
      Err.ioErr ⟨[], [0, 0, 0, 0, 0, 0, 0, 0]⟩ rfl rfl rfl,
    main.2.2.2.1, main.2.2.2.2.2.1⟩

/-- C8: `WriteDate` encodes a timestamp as its signed 64-bit whole-second
count since the Unix epoch, and decoding the produced 8 bytes with
`ReadDate` yields the timestamp truncated to whole seconds — the
nanosecond part is not preserved. -/
theorem C8_date_roundtrip_truncation (t : GoTime)
    (h1 : -2 ^ 63 ≤ t.sec) (h2 : t.sec < 2 ^ 63) :
    (WriteDate t pwst0).1 = Except.ok () ∧
    (WriteDate t pwst0).2.out = leBytes 8 (t.sec % 2 ^ 64).toNat ∧
    (ReadDate ⟨(WriteDate t pwst0).2.out, rbuf0⟩).1 = Except.ok (truncSeconds t) := by
  unfold WriteDate
  rw [WriteInt64_perfect _ _ rfl]
  dsimp only
  refine ⟨rfl, by simp [pwst0], ?_⟩
  simp only [pwst0, List.nil_append]
  unfold ReadDate
  rw [ReadInt64_exact _ _ (leBytes_length 8 _)]
  dsimp only
  rw [leNat_leBytes, show (256 : Nat) ^ 8 = 2 ^ 64 from by norm_num,
    toSigned64_round t.sec h1 h2]
  rfl

/-- C8 witness: the timestamp 2 seconds before the epoch with 999999999
nanoseconds decodes back to exactly -2 seconds, nanoseconds dropped. -/
theorem C8_date_roundtrip_truncation_witness :
    (WriteDate ⟨-2, 999999999⟩ pwst0).1 = Except.ok () ∧
    (WriteDate ⟨-2, 999999999⟩ pwst0).2.out = leBytes 8 ((-2 : Int) % 2 ^ 64).toNat ∧
    (ReadDate ⟨(WriteDate ⟨-2, 999999999⟩ pwst0).2.out, rbuf0⟩).1 = Except.ok ⟨-2, 0⟩ :=
  C8_date_roundtrip_truncation ⟨-2, 999999999⟩ (by norm_num) (by norm_num)

theorem ReadFloat_ok (st : RSt) (h : 4 ≤ st.input.length) :
    ReadFloat st = (Except.ok (leNat (st.input.take 4)),
      ⟨st.input.drop 4, st.input.take 4 ++ st.buf.drop 4⟩) := by
  unfold ReadFloat
  rw [readFullBuf_ok 4 st h]
  dsimp only
  rw [List.take_left' (by simp [List.length_take, Nat.min_eq_left h])]

theorem ReadDate_short (st : RSt) (h : st.input.length < 8) :
    (ReadDate st).1 = Except.error Err.ioErr := by
  have h1 := ReadInt64_short st h
  unfold ReadDate
  rcases heq : ReadInt64 st with ⟨r, st'⟩
  rw [heq] at h1
  simp only at h1
  rw [h1]

theorem ReadPoint_short (st : RSt) (h : st.input.length < 8) :
    (ReadPoint st).1 = Except.error Err.ioErr := by
  unfold ReadPoint
  by_cases h4 : st.input.length < 4
  · have h1 := ReadFloat_short st h4
    rcases heq : ReadFloat st with ⟨r, st'⟩
    rw [heq] at h1
    simp only at h1
    rw [h1]
  · push_neg at h4
    rw [ReadFloat_ok st h4]
    dsimp only
    have h2 := ReadFloat_short ⟨st.input.drop 4, st.input.take 4 ++ st.buf.drop 4⟩
      (by simp [List.length_drop]; omega)
    rcases heq : ReadFloat ⟨st.input.drop 4, st.input.take 4 ++ st.buf.drop 4⟩ with ⟨r, st'⟩
    rw [heq] at h2
    simp only at h2
    rw [h2]

theorem ReadUnit_short (st : RSt)
    (h : st.input.length < 4 + leNat (st.input.take 4)) :
    (ReadUnit st).1 = Except.error Err.ioErr := by
  have h1 := ReadString_short st h
  unfold ReadUnit
  rcases heq : ReadString st with ⟨r, st'⟩
  rw [heq] at h1
  simp only at h1
  rw [h1]

/-- A 44-byte stream: the header of an N=2, M=3 grid (8 header scalars,
32 bytes) followed by one complete 12-byte row and nothing else — 12
bytes short of the 56 the grid requires. -/
def truncatedGridStream : List Nat :=
  leBytes 4 2 ++ leBytes 4 3 ++ List.replicate 24 0 ++ List.replicate 12 1

/-- C5: decoding from a stream shorter than the value requires.  Every
scalar decoder, `ReadDate`, `ReadPoint`, `ReadString` and `ReadUnit`
fails with the propagated stream-I/O error (and, the embedding being
`Except`-shaped, no value accompanies the error).  The grid decoder
however can panic instead of reporting truncation: on the 44-byte
`truncatedGridStream` (two rows promised, one present) `ReadGrid`
panics on the scratch-buffer slice `m.buf[8:12]` while decoding the row
it did receive, before ever noticing the missing second row — the claim
says a truncated stream yields a stream-I/O/truncation error. -/
theorem C5_truncated_stream_errors :
    (∀ st : RSt, st.input.length < 1 → (ReadBool st).1 = Except.error Err.ioErr) ∧
    (∀ st : RSt, st.input.length < 2 → (ReadInt16 st).1 = Except.error Err.ioErr) ∧
    (∀ st : RSt, st.input.length < 4 → (ReadInt st).1 = Except.error Err.ioErr) ∧
    (∀ st : RSt, st.input.length < 8 → (ReadInt64 st).1 = Except.error Err.ioErr) ∧
    (∀ st : RSt, st.input.length < 4 → (ReadFloat st).1 = Except.error Err.ioErr) ∧
    (∀ st : RSt, st.input.length < 8 → (ReadDate st).1 = Except.error Err.ioErr) ∧
    (∀ st : RSt, st.input.length < 8 → (ReadPoint st).1 = Except.error Err.ioErr) ∧
    (∀ st : RSt, st.input.length < 4 + leNat (st.input.take 4) →
       (ReadString st).1 = Except.error Err.ioErr) ∧
    (∀ st : RSt, st.input.length < 4 + leNat (st.input.take 4) →
       (ReadUnit st).1 = Except.error Err.ioErr) ∧
    truncatedGridStream.length = 44 ∧ 44 < 32 + 4 * 3 * 2 ∧
    (ReadGrid ⟨truncatedGridStream, rbuf0⟩).1 = Except.error Err.panic :=
  ⟨ReadBool_short, ReadInt16_short, ReadInt_short, ReadInt64_short, ReadFloat_short,
   ReadDate_short, ReadPoint_short, ReadString_short, ReadUnit_short,
   rfl, by norm_num, rfl⟩

/-- C5 witness: the truncation conjuncts at the empty stream and at a
6-byte stream for `ReadPoint` (one float present, the second missing). -/
theorem C5_truncated_stream_errors_witness :
    (ReadBool ⟨[], rbuf0⟩).1 = Except.error Err.ioErr ∧
    (ReadInt16 ⟨[], rbuf0⟩).1 = Except.error Err.ioErr ∧
    (ReadInt ⟨[], rbuf0⟩).1 = Except.error Err.ioErr ∧
    (ReadInt64 ⟨[], rbuf0⟩).1 = Except.error Err.ioErr ∧
    (ReadFloat ⟨[], rbuf0⟩).1 = Except.error Err.ioErr ∧
    (ReadDate ⟨[], rbuf0⟩).1 = Except.error Err.ioErr ∧
    (ReadPoint ⟨[0, 0, 0, 0, 7, 7], rbuf0⟩).1 = Except.error Err.ioErr ∧
    (ReadString ⟨[2, 0, 0, 0, 65], rbuf0⟩).1 = Except.error Err.ioErr ∧
    (ReadUnit ⟨[2, 0, 0, 0, 65], rbuf0⟩).1 = Except.error Err.ioErr :=
  ⟨C5_truncated_stream_errors.1 ⟨[], rbuf0⟩ (by norm_num),
   C5_truncated_stream_errors.2.1 ⟨[], rbuf0⟩ (by norm_num),
   C5_truncated_stream_errors.2.2.1 ⟨[], rbuf0⟩ (by norm_num),
   C5_truncated_stream_errors.2.2.2.1 ⟨[], rbuf0⟩ (by norm_num),
   C5_truncated_stream_errors.2.2.2.2.1 ⟨[], rbuf0⟩ (by norm_num),
   C5_truncated_stream_errors.2.2.2.2.2.1 ⟨[], rbuf0⟩ (by norm_num),
   C5_truncated_stream_errors.2.2.2.2.2.2.1 ⟨[0, 0, 0, 0, 7, 7], rbuf0⟩ (by norm_num),
   C5_truncated_stream_errors.2.2.2.2.2.2.2.1 ⟨[2, 0, 0, 0, 65], rbuf0⟩
     (by norm_num [leNat]),
   C5_truncated_stream_errors.2.2.2.2.2.2.2.2.1 ⟨[2, 0, 0, 0, 65], rbuf0⟩
     (by norm_num [leNat])⟩

theorem wWrite_resp (b : List Nat) (st : WSt) (n : Nat)
    (h : st.sink st.widx b.length = WResp.ok n) :
    wWrite b st = (Except.ok n, { st with widx := st.widx + 1, out := st.out ++ b.take n }) := by
  unfold wWrite
  rw [h]

theorem writeAllRun_no_noFullWrite (fuel : Nat) :
    ∀ (b : List Nat) (st : WSt), (writeAllRun fuel b st).1 ≠ Except.error Err.noFullWrite := by
  induction fuel with
  | zero =>
    intro b st
    cases b with
    | nil => rw [writeAllRun_nil]; simp
    | cons x xs => simp [show writeAllRun 0 (x :: xs) st = (Except.error Err.hang, st) from rfl]
  | succ f ih =>
    intro b st
    cases b with
    | nil => rw [writeAllRun_nil]; simp
    | cons x xs =>
      rw [writeAllRun_cons]
      unfold wWrite
      cases hs : st.sink st.widx (x :: xs).length with
      | err => simp [hs]
      | ok n =>
        simp only [hs]
        exact ih _ _

theorem writeAllRun_ok_out (fuel : Nat) :
    ∀ (b : List Nat) (st st' : WSt),
      writeAllRun fuel b st = (Except.ok (), st') → st'.out = st.out ++ b := by
  induction fuel with
  | zero =>
    intro b st st' h
    cases b with
    | nil =>
      rw [writeAllRun_nil] at h
      have hst : st = st' := congrArg Prod.snd h
      rw [← hst]
      simp
    | cons x xs =>
      rw [show writeAllRun 0 (x :: xs) st = (Except.error Err.hang, st) from rfl] at h
      exact absurd (congrArg Prod.fst h) (by simp)
  | succ f ih =>
    intro b st st' h
    cases b with
    | nil =>
      rw [writeAllRun_nil] at h
      have hst : st = st' := congrArg Prod.snd h
      rw [← hst]
      simp
    | cons x xs =>
      rw [writeAllRun_cons] at h
      unfold wWrite at h
      cases hs : st.sink st.widx (x :: xs).length with
      | err => rw [hs] at h; exact absurd (congrArg Prod.fst h) (by simp)
      | ok n =>
        rw [hs] at h
        simp only at h
        have := ih _ _ _ h
        simp only at this
        rw [this]
        rw [List.append_assoc, List.take_append_drop]

/-- C6: fixed-width scalar writers make exactly one `Write` attempt and
synthesize the distinct short-write error `ErrNoFullWrite` whenever the
sink reports fewer bytes than requested without an error; the `writeAll`
loop behind string bodies and grid rows, by contrast, never produces
`ErrNoFullWrite` — it retries until everything is written (in which case
the sink has accepted exactly the requested bytes) or the sink itself
errors. -/
theorem C6_short_write_policy :
    (∀ (v : Bool) (st : WSt) (n : Nat), st.sink st.widx 1 = WResp.ok n → n ≠ 1 →
       (WriteBool v st).1 = Except.error Err.noFullWrite) ∧
    (∀ (v : Int) (st : WSt) (n : Nat), st.sink st.widx 2 = WResp.ok n → n ≠ 2 →
       (WriteInt16 v st).1 = Except.error Err.noFullWrite) ∧
    (∀ (v : Int) (st : WSt) (n : Nat), st.sink st.widx 4 = WResp.ok n → n ≠ 4 →
       (WriteInt v st).1 = Except.error Err.noFullWrite) ∧
    (∀ (v : Int) (st : WSt) (n : Nat), st.sink st.widx 8 = WResp.ok n → n ≠ 8 →
       (WriteInt64 v st).1 = Except.error Err.noFullWrite) ∧
    (∀ (v : Nat) (st : WSt) (n : Nat), st.sink st.widx 4 = WResp.ok n → n ≠ 4 →
       (WriteFloat v st).1 = Except.error Err.noFullWrite) ∧
    (∀ (fuel : Nat) (b : List Nat) (st : WSt),
       (writeAllRun fuel b st).1 ≠ Except.error Err.noFullWrite) ∧
    (∀ (fuel : Nat) (b : List Nat) (st st' : WSt),
       writeAllRun fuel b st = (Except.ok (), st') → st'.out = st.out ++ b) := by
  refine ⟨?_, ?_, ?_, ?_, ?_, writeAllRun_no_noFullWrite, writeAllRun_ok_out⟩
  · intro v st n hs hn
    unfold WriteBool
    dsimp only
    rw [List.take_left' (by simp : ([if v then 1 else 0] : List Nat).length = 1)]
    rw [wWrite_resp _ _ n (by simpa using hs)]
    simp [hn]
  · intro v st n hs hn
    unfold WriteInt16
    dsimp only
    rw [List.take_left' (leBytes_length 2 _)]
    rw [wWrite_resp _ _ n (by simpa using hs)]
    simp [hn]
  · intro v st n hs hn
    unfold WriteInt
    dsimp only
    rw [List.take_left' (leBytes_length 4 _)]
    rw [wWrite_resp _ _ n (by simpa using hs)]
    simp [hn]
  · intro v st n hs hn
    unfold WriteInt64
    dsimp only
    rw [List.take_left' (leBytes_length 8 _)]
    rw [wWrite_resp _ _ n (by simpa using hs)]
    simp [hn]
  · intro v st n hs hn
    unfold WriteFloat
    dsimp only
    rw [List.take_left' (leBytes_length 4 _)]
    rw [wWrite_resp _ _ n (by simpa using hs)]
    simp [hn]

/-- A sink that accepts at most one byte per call and never errors. -/
def oneByteSink : Nat → Nat → WResp := fun _ _ => WResp.ok 1

/-- Write-side state of a fresh `MdasIO` bound to the one-byte sink. -/
def owst0 : WSt := ⟨oneByteSink, 0, [], List.replicate 8 0⟩

/-- C6 witness: against the one-byte sink, `WriteFloat` (and `WriteBool`
would succeed — its field is one byte — so `WriteInt` is shown too)
fails with `ErrNoFullWrite`, while `writeAll` of a two-byte body
completes, the sink having accepted both bytes over two calls. -/
theorem C6_short_write_policy_witness :
    (WriteFloat 1065353216 owst0).1 = Except.error Err.noFullWrite ∧
    (WriteInt 7 owst0).1 = Except.error Err.noFullWrite ∧
    (writeAllRun 3 [5, 6] owst0).1 ≠ Except.error Err.noFullWrite ∧
    (writeAllRun 3 [5, 6] owst0).2.out = owst0.out ++ [5, 6] :=
  ⟨C6_short_write_policy.2.2.2.2.1 1065353216 owst0 1 rfl (by norm_num),
   C6_short_write_policy.2.2.1 7 owst0 1 rfl (by norm_num),
   C6_short_write_policy.2.2.2.2.2.1 3 [5, 6] owst0,
   C6_short_write_policy.2.2.2.2.2.2 3 [5, 6] owst0 (writeAllRun 3 [5, 6] owst0).2 rfl⟩

theorem fillRowBuf_ok (data : List (List Nat)) (i : Nat) (row : List Nat)
    (hrow : data.get? i = some row) :
    ∀ (count j : Nat) (rowBuf : List Nat), j + count ≤ row.length →
      ∃ rb, fillRowBuf data i count j rowBuf = Except.ok rb := by
  intro count
  induction count with
  | zero => intro j rowBuf _; exact ⟨rowBuf, rfl⟩
  | succ c ih =>
    intro j rowBuf hle
    have hj : j < row.length := by omega
    unfold fillRowBuf
    rw [hrow, Option.some_bind, List.get?_eq_get hj]
    exact ih (j + 1) _ (by omega)

theorem writeGridRows_ok (data : List (List Nat)) (M : Nat) :
    ∀ (count i : Nat) (st : WSt), st.sink = perfectSink →
      (∀ k, k < count → ∃ row, data.get? (i + k) = some row ∧ M ≤ row.length) →
      ∃ st', writeGridRows data M count i st = (Except.ok (), st') ∧ st'.sink = perfectSink := by
  intro count
  induction count with
  | zero => intro i st hsink _; exact ⟨st, rfl, hsink⟩
  | succ c ih =>
    intro i st hsink hrows
    obtain ⟨row, hrow, hlen⟩ := hrows 0 (Nat.succ_pos c)
    rw [Nat.add_zero] at hrow
    obtain ⟨rb, hrb⟩ := fillRowBuf_ok data i row hrow M 0 (List.replicate (4 * M) 0)
      (by omega)
    unfold writeGridRows
    rw [hrb]
    dsimp only
    obtain ⟨w, hw⟩ := writeAll_perfect rb st hsink
    rw [hw]
    dsimp only
    exact ih (i + 1) _ (by simpa using hsink)
      (fun k hk => by
        have := hrows (k + 1) (by omega)
        rwa [show i + (k + 1) = i + 1 + k from by omega] at this)

/-- C9: `WriteGrid` reads `Data[i][j]` for every `i < N`, `j < M` with no
dimension check against the header: when `Data` has at least `N` rows of
at least `M` entries each (and `M ≥ 0`), every access is in bounds and
the call succeeds against a sink that accepts everything; but with a
`Data` missing an accessed entry the call is a Go runtime panic rather
than a returned error — here, the 1×1 header of `gridOneCell` paired
with an empty `Data`. -/
theorem C9_writegrid_unchecked_dimensions :
    (∀ g : Grid, 0 ≤ g.M →
       g.N.toNat ≤ g.Data.length →
       (∀ k, k < g.N.toNat → g.M.toNat ≤ (g.Data.getD k []).length) →
       (WriteGrid g pwst0).1 = Except.ok ()) ∧
    (WriteGrid { gridOneCell with Data := [] } pwst0).1 = Except.error Err.panic := by
  refine ⟨?_, rfl⟩
  intro g hM hN hrows
  unfold WriteGrid
  rw [WriteInt_perfect _ _ rfl]
  dsimp only
  rw [WriteInt_perfect _ _ rfl]
  dsimp only
  rw [WriteFloat_perfect _ _ rfl]
  dsimp only
  rw [WriteFloat_perfect _ _ rfl]
  dsimp only
  rw [WriteFloat_perfect _ _ rfl]
  dsimp only
  rw [WriteFloat_perfect _ _ rfl]
  dsimp only
  rw [WriteFloat_perfect _ _ rfl]
  dsimp only
  rw [WriteFloat_perfect _ _ rfl]
  dsimp only
  rw [if_neg (by omega : ¬ g.M < 0)]
  have key : ∀ st : WSt, st.sink = perfectSink →
      (writeGridRows g.Data g.M.toNat g.N.toNat 0 st).1 = Except.ok () := by
    intro st hs
    obtain ⟨st', hst', _⟩ := writeGridRows_ok g.Data g.M.toNat g.N.toNat 0 st hs
      (fun k hk => by
        have hk' : k < g.Data.length := by omega
        refine ⟨g.Data.get ⟨k, hk'⟩, by simp [List.get?_eq_get hk'], ?_⟩
        have hlen := hrows k hk
        rwa [List.getD_eq_getElem?_getD, List.getElem?_eq_getElem hk', Option.getD_some] at hlen)
    rw [hst']
  exact key _ rfl

/-- C9 witness: the in-bounds case at `gridOneCell` (a 1×1 grid with a
1×1 matrix), whose encoding succeeds. -/
theorem C9_writegrid_unchecked_dimensions_witness :
    (WriteGrid gridOneCell pwst0).1 = Except.ok () :=
  C9_writegrid_unchecked_dimensions.1 gridOneCell (by norm_num [gridOneCell])
    (by norm_num [gridOneCell]) (by norm_num [gridOneCell])

/-- A sink every one of whose `Write` responses either is an error or
accepts at least one byte (for non-empty requests). -/
def progressiveSink (sink : Nat → Nat → WResp) : Prop :=
  ∀ i len, 0 < len → sink i len = WResp.err ∨ ∃ n, sink i len = WResp.ok n ∧ 1 ≤ n

/-- The `writeAll` loop on buffer `b` against `sink` (from a fresh write
state) terminates: some finite number of unrolled iterations finishes the
Go loop (with success or a sink error) rather than leaving it running. -/
def terminatesOn (sink : Nat → Nat → WResp) (b : List Nat) : Prop :=
  ∃ fuel, (writeAllRun fuel b ⟨sink, 0, [], List.replicate 8 0⟩).1 ≠ Except.error Err.hang

/-- A sink whose first `Write` call accepts zero bytes with no error and
which accepts everything from the second call on. -/
def cexSink : Nat → Nat → WResp := fun i len => if i = 0 then WResp.ok 0 else WResp.ok len

/-- A sink that persistently reports zero bytes written and no error. -/
def zeroSink : Nat → Nat → WResp := fun _ _ => WResp.ok 0

theorem writeAllRun_progressive (fuel : Nat) :
    ∀ (b : List Nat) (st : WSt), b.length < fuel → progressiveSink st.sink →
      (writeAllRun fuel b st).1 ≠ Except.error Err.hang := by
  induction fuel with
  | zero => intro b st h _; omega
  | succ f ih =>
    intro b st hlen hp
    cases b with
    | nil => rw [writeAllRun_nil]; simp
    | cons x xs =>
      rw [writeAllRun_cons]
      rcases hp st.widx (x :: xs).length (by simp) with hs | ⟨n, hs, hn⟩
      · unfold wWrite
        rw [hs]
        simp
      · rw [wWrite_resp _ _ n hs]
        dsimp only
        refine ih _ _ ?_ (by simpa using hp)
        have : ((x :: xs).drop n).length = (x :: xs).length - n := List.length_drop n _
        simp only [List.length_cons] at hlen this ⊢
        omega

theorem writeAllRun_zero_sink (fuel : Nat) :
    ∀ (b : List Nat) (st : WSt), b ≠ [] → (∀ i len, st.sink i len = WResp.ok 0) →
      (writeAllRun fuel b st).1 = Except.error Err.hang := by
  induction fuel with
  | zero =>
    intro b st hb _
    cases b with
    | nil => exact absurd rfl hb
    | cons x xs => rfl
  | succ f ih =>
    intro b st hb hz
    cases b with
    | nil => exact absurd rfl hb
    | cons x xs =>
      rw [writeAllRun_cons]
      rw [wWrite_resp _ _ 0 (hz st.widx _)]
      dsimp only
      rw [List.drop_zero]
      exact ih _ _ (by simp) (by simpa using hz)

/-- C10 counterexample: the claim's "if and only if" fails in the
only-if direction.  Against `cexSink` — whose very first `Write` call
returns zero bytes and no error — `writeAll [1, 2]` still terminates
(the second call accepts everything), yet not every sink call errors or
writes at least one byte; so termination is not equivalent to every call
making progress. -/
theorem C10_writeall_termination_counterexample :
    terminatesOn cexSink [1, 2] ∧ ¬ progressiveSink cexSink ∧
    ¬ (∀ (sink : Nat → Nat → WResp) (b : List Nat),
         terminatesOn sink b ↔ progressiveSink sink) := by
  have hterm : terminatesOn cexSink [1, 2] := by
    refine ⟨2, ?_⟩
    rw [show (writeAllRun 2 [1, 2] ⟨cexSink, 0, [], List.replicate 8 0⟩).1
          = Except.ok () from rfl]
    simp
  have hnp : ¬ progressiveSink cexSink := by
    intro hp
    rcases hp 0 2 (by norm_num) with hs | ⟨n, hs, hn⟩
    · rw [show cexSink 0 2 = WResp.ok 0 from rfl] at hs
      cases hs
    · rw [show cexSink 0 2 = WResp.ok 0 from rfl] at hs
      cases hs
      omega
  exact ⟨hterm, hnp, fun hclaim => hnp ((hclaim cexSink [1, 2]).mp hterm)⟩

/-- C10 amended: `writeAll` terminates whenever every sink response is an
error or accepts at least one byte (at most `b.length` calls are needed),
and against a sink that persistently reports zero bytes written and no
error it loops forever — no number of unrolled iterations finishes;
finitely many zero-progress responses, however, do not prevent
termination (see the counterexample). -/
theorem C10_writeall_termination_amended :
    (∀ (b : List Nat) (st : WSt), progressiveSink st.sink →
       (writeAllRun (b.length + 1) b st).1 ≠ Except.error Err.hang) ∧
    (∀ (fuel : Nat) (b : List Nat) (st : WSt), b ≠ [] →
       (∀ i len, st.sink i len = WResp.ok 0) →
       (writeAllRun fuel b st).1 = Except.error Err.hang) :=
  ⟨fun b st hp => writeAllRun_progressive (b.length + 1) b st (by omega) hp,
   writeAllRun_zero_sink⟩

/-- C10 amended witness: the perfect sink is progressive, so `writeAll`
of `[5]` terminates against it; against the persistently zero sink the
loop is still running after any number of iterations (shown at 3 and at
100). -/
theorem C10_writeall_termination_amended_witness :
    (writeAllRun 2 [5] pwst0).1 ≠ Except.error Err.hang ∧
    (writeAllRun 3 [5] ⟨zeroSink, 0, [], List.replicate 8 0⟩).1 = Except.error Err.hang ∧
    (writeAllRun 100 [5] ⟨zeroSink, 0, [], List.replicate 8 0⟩).1 = Except.error Err.hang :=
  ⟨C10_writeall_termination_amended.1 [5] pwst0
      (fun i len h => Or.inr ⟨len, rfl, h⟩),
   C10_writeall_termination_amended.2 3 [5] ⟨zeroSink, 0, [], List.replicate 8 0⟩
      (by simp) (fun _ _ => rfl),
   C10_writeall_termination_amended.2 100 [5] ⟨zeroSink, 0, [], List.replicate 8 0⟩
      (by simp) (fun _ _ => rfl)⟩

end Mdasio
